import Mathlib

/-!
Verification of the counterpoint workflow/rate-limiter/chat-engine core.

Shallow embedding of the Python sources:
  * `counterpoint/workflow.py`   — `AsyncWorkflowStep`, `run_batch`, `__or__`, `flat_map`
  * `counterpoint/rate_limiter.py` — `RateLimiter.acquire`, `from_rpm`, the registry
  * `counterpoint/chat_workflow.py` — `ChatWorkflow._run_steps` / `run`
  * `counterpoint/chat.py`       — `Chat.add`
  * `counterpoint/templates/message_parser.py` — `render_messages_template`
  * `counterpoint/generators/base.py` — `BaseGenerator.with_params`

Async execution is modelled by sequential evaluation (each claim below only
concerns input/output behaviour, not interleavings); Python exceptions are
modelled by `Except` with an explicit exception datatype.
-/

namespace Counterpoint

/-- Error handling mode of a workflow step (`ErrorMode = Literal["raise", "pass"]`). -/
inductive ErrorMode
  | raiseMode
  | passMode
deriving DecidableEq, Repr

/-- Python exceptions relevant to the workflow engine.  `noOutputError` embeds
`NoOutputError` from `workflow.py`; the others stand for ordinary exceptions
raised by user code or by the engine itself. -/
inductive Exc
  | noOutputError
  | valueError (msg : String)
  | typeError (msg : String)
deriving DecidableEq, Repr

/-- A workflow step (`AsyncWorkflowStep`): an error mode together with its
`run` function.  A Python `run` either returns a value or raises. -/
structure AsyncWorkflowStep (α β : Type) where
  errorMode : ErrorMode
  run : α → Except Exc β

/-- One item of an `asyncio.gather(..., return_exceptions=True)` result:
either a real output or an exception object placed in the list. -/
inductive BatchItem (β : Type)
  | ok (b : β)
  | exc (e : Exc)
deriving DecidableEq, Repr

/-- Embedding of `AsyncWorkflowStep.run_batch` (workflow.py lines 67-71):
`asyncio.gather(*(self.run(inp) for inp in inputs),
return_exceptions=self.error_mode != "raise")`.
With `return_exceptions=False` (raise mode) the first exception propagates;
with `return_exceptions=True` (pass mode) exception objects are returned
in place inside the result list. -/
def AsyncWorkflowStep.runBatch (s : AsyncWorkflowStep α β) (inputs : List α) :
    Except Exc (List (BatchItem β)) :=
  match s.errorMode with
  | .raiseMode => (inputs.mapM s.run).map (List.map BatchItem.ok)
  | .passMode =>
      .ok (inputs.map fun a =>
        match s.run a with
        | .ok b => .ok b
        | .error e => .exc e)

/-- Embedding of `AsyncWorkflowStep.__or__` (workflow.py lines 88-122): the
composed step runs the parent then the next step; on any exception it
re-raises in raise mode and raises `NoOutputError` in pass mode.  The composed
step's error mode is the parent's. -/
def AsyncWorkflowStep.orComp (s : AsyncWorkflowStep α β)
    (next : AsyncWorkflowStep β γ) : AsyncWorkflowStep α γ where
  errorMode := s.errorMode
  run := fun input =>
    let attempt : Except Exc γ :=
      match s.run input with
      | .error e => .error e
      | .ok intermediate => next.run intermediate
    match attempt with
    | .ok y => .ok y
    | .error e =>
        match s.errorMode with
        | .raiseMode => .error e
        | .passMode => .error .noOutputError

/-- A dynamically-typed step output, as scrutinised by
`isinstance(outputs, list)` in `FlatMappedStep.run`: either a runtime list or
some non-list value. -/
inductive Dyn (β : Type)
  | value (v : β)
  | list (xs : List β)
deriving DecidableEq, Repr

/-- Embedding of `AsyncWorkflowStep.flat_map` (workflow.py lines 158-192):
run the parent, check `isinstance(outputs, list)` (raising `TypeError`
otherwise), then run the next step on every element (first failure
propagates, as `asyncio.gather` without `return_exceptions`).  Any exception
escaping the `try` is re-raised in raise mode; in pass mode `run` returns the
empty list. -/
def AsyncWorkflowStep.flatMap (s : AsyncWorkflowStep α (Dyn β))
    (next : AsyncWorkflowStep β γ) : AsyncWorkflowStep α (List γ) where
  errorMode := s.errorMode
  run := fun input =>
    let attempt : Except Exc (List γ) :=
      match s.run input with
      | .error e => .error e
      | .ok (.value _) => .error (.typeError "Expected list")
      | .ok (.list xs) => xs.mapM next.run
    match attempt with
    | .ok r => .ok r
    | .error e =>
        match s.errorMode with
        | .raiseMode => .error e
        | .passMode => .ok []

/-- The `FailingStep` of the repository's own test-suite
(`tests/test_workflow.py`): fails on negative inputs, otherwise doubles. -/
def failingStep : AsyncWorkflowStep Int Int where
  errorMode := .passMode
  run := fun x =>
    if x < 0 then .error (.valueError "Negative value not allowed")
    else .ok (2 * x)

/-- Embedding of `RateLimiterStrategy` (rate_limiter.py lines 9-11).
Times and intervals are modelled as rationals. -/
structure RateLimiterStrategy where
  minInterval : ℚ
  maxConcurrent : ℕ := 5
deriving DecidableEq, Repr

/-- Embedding of `RateLimiter.from_rpm` (rate_limiter.py lines 26-48):
`min_interval = 60.0 / rpm`, keeping the supplied `max_concurrent`. -/
def fromRpm (rpm : ℕ) (maxConcurrent : ℕ := 5) : RateLimiterStrategy where
  minInterval := 60 / (rpm : ℚ)
  maxConcurrent := maxConcurrent

/-- The watermark update performed by `RateLimiter.acquire` (rate_limiter.py
lines 69-76) under the lock: if the previous `_next_request_time` is in the
future, sleep until it and advance it by `min_interval`; otherwise set it to
`now + min_interval`. -/
def acquireWatermark (strat : RateLimiterStrategy) (now next : ℚ) : ℚ :=
  if next > now then next + strat.minInterval else now + strat.minInterval

/-- Runtime state of a `RateLimiter`: remaining semaphore permits, number of
current holders (acquired, not yet released), and the `_next_request_time`
watermark. -/
structure RLState where
  available : ℕ
  holders : ℕ
  nextRequestTime : ℚ
deriving DecidableEq, Repr

/-- Transitions of the rate limiter as used through `throttle()`
(rate_limiter.py lines 50-79): `acquire` takes a semaphore permit (only
possible when one is available) and advances the watermark with the current
monotonic time `now`; `release` (in `throttle`'s `finally`) returns the
permit of one current holder. -/
inductive RLTrans (strat : RateLimiterStrategy) : RLState → RLState → Prop
  | acquire (now : ℚ) (st : RLState) (h : 0 < st.available) :
      RLTrans strat st
        ⟨st.available - 1, st.holders + 1,
          acquireWatermark strat now st.nextRequestTime⟩
  | release (st : RLState) (h : 0 < st.holders) :
      RLTrans strat st ⟨st.available + 1, st.holders - 1, st.nextRequestTime⟩

/-- States reachable from a freshly constructed rate limiter
(`model_post_init` makes a semaphore with `max_concurrent` permits; the
watermark starts at the construction time `t0`). -/
inductive RLReachable (strat : RateLimiterStrategy) : RLState → Prop
  | init (t0 : ℚ) : RLReachable strat ⟨strat.maxConcurrent, 0, t0⟩
  | step {st st' : RLState} :
      RLReachable strat st → RLTrans strat st st' → RLReachable strat st'

/-- A registered rate limiter object: its registry key and its strategy. -/
structure RateLimiterObj where
  rateLimiterId : String
  strategy : RateLimiterStrategy
deriving DecidableEq, Repr

/-- The process-wide registry `_rate_limiters : dict[str, RateLimiter]`. -/
def Registry := String → Option RateLimiterObj

/-- Embedding of `_register_rate_limiter` (rate_limiter.py lines 85-86):
`_rate_limiters[rate_limiter.rate_limiter_id] = rate_limiter`. -/
def registerRateLimiter (reg : Registry) (rl : RateLimiterObj) : Registry :=
  fun i => if i = rl.rateLimiterId then some rl else reg i

/-- Embedding of `get_rate_limiter` (rate_limiter.py lines 89-107): a plain
dictionary lookup; a `KeyError` is converted to
`ValueError(f"Rate limiter with id {rate_limiter_id} not found")`. -/
def getRateLimiter (reg : Registry) (rateLimiterId : String) :
    Except String RateLimiterObj :=
  match reg rateLimiterId with
  | some rl => .ok rl
  | none => .error ("Rate limiter with id " ++ rateLimiterId ++ " not found")

/-- Message roles (`Role = Literal["assistant", "user", "system", "tool"]`). -/
inductive Role
  | assistant
  | user
  | system
  | tool
deriving DecidableEq, Repr

/-- Embedding of `Function` (tools.py lines 7-9). -/
structure FunctionSpec where
  arguments : String
  name : String
deriving DecidableEq, Repr

/-- Embedding of `ToolCall` (tools.py lines 12-15); the `type` field is the
constant `"function"` and is omitted. -/
structure ToolCall where
  id : String
  function : FunctionSpec
deriving DecidableEq, Repr

/-- Embedding of `Message` (chat.py lines 40-44).  `tool_calls` is
`list[ToolCall] | None` in Python and is only ever used through its
truthiness (`None` and `[]` are both falsy), so both are modelled as `[]`. -/
structure Message where
  role : Role
  content : Option String := none
  toolCalls : List ToolCall := []
  toolCallId : Option String := none
deriving DecidableEq, Repr

/-- The heap of live `Chat` objects, keyed by object identity: each chat
object holds a mutable message list (`Chat.messages`). -/
def ChatHeap := ℕ → Option (List Message)

/-- Embedding of `Chat.add` (chat.py lines 108-110):
`self.messages.append(message); return self` — appends to the receiver's
message list in place and returns the same object. -/
def chatAdd (heap : ChatHeap) (cid : ℕ) (message : Message) : ChatHeap × ℕ :=
  (fun i => if i = cid then (heap i).map (· ++ [message]) else heap i, cid)

/-- The environment of registered tools (`ChatWorkflow.tools`): a name is
mapped to the tool's run function, already composed with the JSON
serialisation of its result (`json.dumps(tool_response)`). -/
def ToolEnv := String → Option (String → String)

/-- Failures of the conversation engine. -/
inductive EngineError
  | generatorExhausted
  | toolNotFound (name : String)
  | runtimeError
deriving DecidableEq, Repr

/-- The tool-execution block of `ChatWorkflow._run_steps` (chat_workflow.py
lines 243-256): for each requested call, in emission order, look up the tool
by name (a missing name is a fatal `KeyError`) and build a `role="tool"`
result message carrying the originating call id. -/
def toolResultMessages (tools : ToolEnv) :
    List ToolCall → Except EngineError (List Message)
  | [] => .ok []
  | tc :: restCalls =>
      match tools tc.function.name with
      | none => .error (.toolNotFound tc.function.name)
      | some runTool =>
          match toolResultMessages tools restCalls with
          | .error e => .error e
          | .ok tms =>
              .ok ({ role := .tool,
                     content := some (runTool tc.function.arguments),
                     toolCallId := some tc.id } :: tms)

/-- The loop-break test of `ChatWorkflow._run_steps` (chat_workflow.py line
214): `self.max_steps is not None and current_step_num >= self.max_steps`. -/
def budgetReached (maxSteps : Option ℕ) (stepNum : ℕ) : Bool :=
  match maxSteps with
  | some m => decide (m ≤ stepNum)
  | none => false

/-- Embedding of the loop of `ChatWorkflow._run_steps` (chat_workflow.py
lines 208-264).  The generator is modelled as the list `responses` of
messages it will return, consumed in order.  `chat` is the current message
list, `stepNum` the `current_step_num` counter, and `acc` the chats of the
steps yielded so far (each yielded `ChatWorkflowStep` holds the chat with the
response appended but without that round's tool messages).  Returns the list
of yielded step chats. -/
def runStepsFrom (tools : ToolEnv) (maxSteps : Option ℕ) :
    List Message → List Message → ℕ → List (List Message) →
    Except EngineError (List (List Message))
  | responses, chat, stepNum, acc =>
    cond (budgetReached maxSteps stepNum)
      (.ok acc)
      (match responses with
       | [] => .error .generatorExhausted
       | response :: rest =>
           let chat1 := chat ++ [response]
           let acc1 := acc ++ [chat1]
           cond response.toolCalls.isEmpty
             (.ok acc1)
             (match toolResultMessages tools response.toolCalls with
              | .error e => .error e
              | .ok tms =>
                  runStepsFrom tools maxSteps rest (chat1 ++ tms) (stepNum + 1) acc1))

/-- Embedding of `ChatWorkflow.run` (chat_workflow.py lines 266-289): drain
`_run_steps`, keep the last yielded step, and return its chat; if no step was
yielded, raise `RuntimeError("Chat workflow step failed.")`. -/
def runChatWorkflow (tools : ToolEnv) (maxSteps : Option ℕ)
    (responses initMessages : List Message) : Except EngineError (List Message) :=
  match runStepsFrom tools maxSteps responses initMessages 0 [] with
  | .error e => .error e
  | .ok snaps =>
      match snaps.getLast? with
      | some chat => .ok chat
      | none => .error .runtimeError

/-- Embedding of `render_messages_template` (message_parser.py lines 52-83),
abstracted over the Jinja rendering itself (out of core scope): given the
messages collected from `{% message %}` blocks and the residual rendered
output, fail when blocks coexist with non-whitespace residual text; return
the block messages when the residual is whitespace-only; with no blocks wrap
the whole output in a single user message. -/
def renderMessagesTemplate (blockMessages : List Message)
    (renderedOutput : String) : Except String (List Message) :=
  if blockMessages ≠ [] then
    if ¬ renderedOutput.data.all Char.isWhitespace then
      .error "Template contains message blocks but rendered output is not empty."
    else
      .ok blockMessages
  else
    .ok [{ role := .user, content := some renderedOutput }]

/-- Embedding of `GenerationParams` (generators/base.py lines 19-30):
sampling temperature, optional structured-output contract (by name) and the
list of enabled tools (by name). -/
structure GenerationParams where
  temperature : ℚ := 1
  responseFormat : Option String := none
  tools : List String := []
deriving DecidableEq, Repr

/-- The keyword arguments accepted by `with_params`
(`GenerationParamsKwargs`, all fields optional). -/
structure GenerationParamsKwargs where
  temperature : Option ℚ := none
  responseFormat : Option (Option String) := none
  tools : Option (List String) := none

/-- Pydantic's `params.model_copy(update=kwargs)`: each field present in the
update replaces the copy's field, absent fields keep their values. -/
def GenerationParams.updateWith (p : GenerationParams)
    (kw : GenerationParamsKwargs) : GenerationParams where
  temperature := kw.temperature.getD p.temperature
  responseFormat := kw.responseFormat.getD p.responseFormat
  tools := kw.tools.getD p.tools

/-- A generator object (`LiteLLMGenerator`, the concrete `BaseGenerator`):
its model identifier and its default generation params. -/
structure Generator where
  model : String
  params : GenerationParams
deriving DecidableEq, Repr

/-- The heap of live generator objects, keyed by object identity. -/
def GenHeap := ℕ → Option Generator

/-- Embedding of `BaseGenerator.with_params` (generators/base.py lines
121-136): `generator = self.model_copy(deep=True)` allocates a fresh object
(`freshId`) copying `self`; then `generator.params =
generator.params.model_copy(update=kwargs)` replaces the fresh object's
params; the fresh object is returned. -/
def withParams (heap : GenHeap) (selfId freshId : ℕ)
    (kwargs : GenerationParamsKwargs) : GenHeap × ℕ :=
  match heap selfId with
  | none => (heap, selfId)
  | some g =>
      (fun i =>
        if i = freshId then
          some { g with params := g.params.updateWith kwargs }
        else heap i,
       freshId)

/-- A step whose run returns a non-list (`Dyn.value`) output, in pass mode. -/
def scalarStepPass : AsyncWorkflowStep Int (Dyn Int) where
  errorMode := .passMode
  run := fun x => .ok (.value x)

/-- A step whose run returns a non-list (`Dyn.value`) output, in raise mode. -/
def scalarStepRaise : AsyncWorkflowStep Int (Dyn Int) where
  errorMode := .raiseMode
  run := fun x => .ok (.value x)

/-- The `AddStep` of the repository's tests, adding 5. -/
def addFive : AsyncWorkflowStep Int Int where
  errorMode := .raiseMode
  run := fun x => .ok (x + 5)

/-- An always-succeeding identity step in raise mode. -/
def idStepRaise : AsyncWorkflowStep Int Int where
  errorMode := .raiseMode
  run := fun x => .ok x

/-- An always-succeeding identity step in pass mode. -/
def idStepPass : AsyncWorkflowStep Int Int where
  errorMode := .passMode
  run := fun x => .ok x

/-- A step whose run always raises a `ValueError`. -/
def boomStep : AsyncWorkflowStep Int Int where
  errorMode := .raiseMode
  run := fun _ => .error (.valueError "boom")

/-- A tool environment holding a single `echo` tool returning its arguments. -/
def echoTools : ToolEnv :=
  fun n => if n = "echo" then some (fun args => args) else none

/-- A tool-call request for the `echo` tool. -/
def tcA : ToolCall := ⟨"call_1", ⟨"a", "echo"⟩⟩

/-- A second tool-call request for the `echo` tool. -/
def tcB : ToolCall := ⟨"call_2", ⟨"b", "echo"⟩⟩

/-- An assistant response carrying two tool-call requests. -/
def respTwoCalls : Message where
  role := .assistant
  content := some "calling"
  toolCalls := [tcA, tcB]

/-- An assistant response carrying one tool-call request. -/
def respOneCall : Message where
  role := .assistant
  content := some "calling"
  toolCalls := [tcA]

/-- A tool-call-free assistant response. -/
def respFinal : Message where
  role := .assistant
  content := some "done"

/-- Claim C1: for a step with `error_mode = "pass"`, `run_batch` does NOT
exclude failing inputs — `asyncio.gather(..., return_exceptions=True)` places
the exception objects inside the returned list.  Evaluated on the
test-suite's own scenario (`FailingStep` on `[-2, 1, -1, 3]`), contradicting
`tests/test_workflow.py::test_run_batch_with_errors_pass_mode`, which expects
the two successes only. -/
theorem run_batch_pass_keeps_exception_objects :
    failingStep.runBatch [-2, 1, -1, 3] =
      .ok [.exc (.valueError "Negative value not allowed"), .ok 2,
           .exc (.valueError "Negative value not allowed"), .ok 6] := by
  rfl

/-- Claim C2 counterexample: with `error_mode = "pass"`, a flat-mapped step
over a non-list upstream output does not raise — the `TypeError` is caught by
the generic handler and `run` returns the empty list. -/
theorem flat_map_pass_swallows_type_error :
    (scalarStepPass.flatMap addFive).run 3 = .ok [] := by
  rfl

/-- Claim C2 (amended): when the upstream step returns a non-list value, the
flat-mapped step's `run` raises `TypeError` in raise mode, but in pass mode
the `TypeError` is caught like any other failure and `run` returns `[]`. -/
theorem flat_map_non_list_output (s : AsyncWorkflowStep α (Dyn β))
    (next : AsyncWorkflowStep β γ) (input : α) (v : β)
    (h : s.run input = .ok (.value v)) :
    (s.errorMode = .raiseMode →
      (s.flatMap next).run input = .error (.typeError "Expected list"))
    ∧ (s.errorMode = .passMode → (s.flatMap next).run input = .ok []) := by
  constructor <;> intro hm <;> simp [AsyncWorkflowStep.flatMap, h, hm]

/-- Claim C2 witness: the amended statement evaluated on concrete steps. -/
theorem flat_map_non_list_output_witness :
    (scalarStepRaise.flatMap addFive).run 7 = .error (.typeError "Expected list")
    ∧ (scalarStepPass.flatMap addFive).run 7 = .ok [] :=
  ⟨(flat_map_non_list_output scalarStepRaise addFive 7 7 rfl).1 rfl,
   (flat_map_non_list_output scalarStepPass addFive 7 7 rfl).2 rfl⟩

/-- Claim C6 counterexample: looking up an identifier that was never
registered does not lazily create a limiter — `get_rate_limiter` fails with
a `ValueError`. -/
theorem get_rate_limiter_unseen_id_fails :
    getRateLimiter (fun _ => none) "my-limiter" =
      .error "Rate limiter with id my-limiter not found" := by
  rfl

/-- Claim C6 (amended): rate limiters enter the process-wide registry when
they are constructed (`model_post_init` calls `_register_rate_limiter`);
`get_rate_limiter` then returns that same registered instance for its
identifier, and fails with a `ValueError` for an identifier that was never
registered. -/
theorem get_rate_limiter_lookup (reg : Registry) (rl : RateLimiterObj)
    (badId : String) (hmiss : reg badId = none) :
    getRateLimiter (registerRateLimiter reg rl) rl.rateLimiterId = .ok rl
    ∧ getRateLimiter reg badId =
        .error ("Rate limiter with id " ++ badId ++ " not found") := by
  refine ⟨?_, ?_⟩
  · simp [getRateLimiter, registerRateLimiter]
  · simp [getRateLimiter, hmiss]

/-- Claim C6 witness: registration followed by lookup on a concrete registry. -/
theorem get_rate_limiter_lookup_witness :
    getRateLimiter
        (registerRateLimiter (fun _ => none) ⟨"openai", ⟨2, 5⟩⟩) "openai"
      = .ok ⟨"openai", ⟨2, 5⟩⟩
    ∧ getRateLimiter (fun _ => none) "other" =
        .error ("Rate limiter with id " ++ "other" ++ " not found") :=
  get_rate_limiter_lookup (fun _ => none) ⟨"openai", ⟨2, 5⟩⟩ "other" rfl

/-- Claim C8: when the rendering produced at least one explicit message
block, a non-whitespace residual text is a fatal error and a whitespace-only
residual yields exactly the block messages. -/
theorem render_messages_template_blocks (blockMessages : List Message)
    (renderedOutput : String) (hne : blockMessages ≠ []) :
    (renderedOutput.data.all Char.isWhitespace = false →
      renderMessagesTemplate blockMessages renderedOutput =
        .error "Template contains message blocks but rendered output is not empty.")
    ∧ (renderedOutput.data.all Char.isWhitespace = true →
      renderMessagesTemplate blockMessages renderedOutput = .ok blockMessages) := by
  constructor <;> intro h <;> simp [renderMessagesTemplate, hne, h]

/-- Claim C8 witness: one block message with whitespace-only and with
non-whitespace residual text. -/
theorem render_messages_template_blocks_witness :
    renderMessagesTemplate [respFinal] "  \n" = .ok [respFinal]
    ∧ renderMessagesTemplate [respFinal] "stray text" =
        .error "Template contains message blocks but rendered output is not empty." :=
  ⟨(render_messages_template_blocks [respFinal] "  \n" (by simp)).2 (by decide),
   (render_messages_template_blocks [respFinal] "stray text" (by simp)).1 (by decide)⟩

/-- Claim C9 counterexample: with mixed error modes (`a` in raise mode, `b`
in pass mode) and a failing `c`, `(a | b) | c` raises the original
`ValueError` while `a | (b | c)` raises `NoOutputError` — the two
compositions fail differently on the same input. -/
theorem or_composition_not_associative :
    ((idStepRaise.orComp idStepPass).orComp boomStep).run 0 =
        .error (.valueError "boom")
    ∧ (idStepRaise.orComp (idStepPass.orComp boomStep)).run 0 =
        .error .noOutputError :=
  ⟨rfl, rfl⟩

/-- Claim C9 (amended): composition with `|` is associative in outputs and
failures whenever the first two steps carry the same error mode — in
particular whenever all steps share one error mode.  (The composed step
inherits its error mode from its left operand, so `a`'s mode governs the
outer handler on both sides while the inner handler is governed by `a` on
the left and by `b` on the right.) -/
theorem or_composition_assoc (a : AsyncWorkflowStep α β)
    (b : AsyncWorkflowStep β γ) (c : AsyncWorkflowStep γ δ)
    (hmode : a.errorMode = b.errorMode) (x : α) :
    ((a.orComp b).orComp c).run x = (a.orComp (b.orComp c)).run x := by
  simp only [AsyncWorkflowStep.orComp, ← hmode]
  cases hm : a.errorMode <;>
    cases ha : a.run x with
    | error e => simp
    | ok y =>
        cases hb : b.run y with
        | error e => simp [hb]
        | ok z => cases hc : c.run z <;> simp [hb, hc]

/-- Claim C9 witness: associativity on concrete same-mode steps. -/
theorem or_composition_assoc_witness :
    ((idStepRaise.orComp addFive).orComp addFive).run 1 =
      (idStepRaise.orComp (addFive.orComp addFive)).run 1 :=
  or_composition_assoc idStepRaise addFive addFive rfl 1

/-- Claim C10: `with_params` allocates a fresh generator whose params are the
old params updated with the given keyword arguments, returns that fresh
object, and leaves the original generator object (and every other object)
entirely unchanged. -/
theorem with_params_updates_copy_only (heap : GenHeap) (selfId freshId : ℕ)
    (g : Generator) (kw : GenerationParamsKwargs)
    (hself : heap selfId = some g) (hfresh : freshId ≠ selfId) :
    (withParams heap selfId freshId kw).2 = freshId
    ∧ (withParams heap selfId freshId kw).1 freshId =
        some { g with params := g.params.updateWith kw }
    ∧ (withParams heap selfId freshId kw).1 selfId = some g
    ∧ (∀ i, i ≠ freshId → (withParams heap selfId freshId kw).1 i = heap i) := by
  refine ⟨?_, ?_, ?_, ?_⟩
  · simp [withParams, hself]
  · simp [withParams, hself]
  · simp [withParams, hself, Ne.symm hfresh]
  · intro i hi
    simp [withParams, hself, hi]

/-- Claim C10 witness: a two-object heap, updating the temperature. -/
theorem with_params_updates_copy_only_witness :
    (withParams (fun i => if i = 0 then some ⟨"gpt-4", {}⟩ else none) 0 1
        { temperature := some 2 }).2 = 1
    ∧ (withParams (fun i => if i = 0 then some ⟨"gpt-4", {}⟩ else none) 0 1
        { temperature := some 2 }).1 1 =
        some { model := "gpt-4",
               params := GenerationParams.updateWith {} { temperature := some 2 } }
    ∧ (withParams (fun i => if i = 0 then some ⟨"gpt-4", {}⟩ else none) 0 1
        { temperature := some 2 }).1 0 = some ⟨"gpt-4", {}⟩ := by
  have h := with_params_updates_copy_only
    (fun i => if i = 0 then some ⟨"gpt-4", {}⟩ else none) 0 1 ⟨"gpt-4", {}⟩
    { temperature := some 2 } (by simp) (by simp)
  exact ⟨h.1, h.2.1, h.2.2.1⟩

/-- Semaphore bookkeeping: in every reachable rate-limiter state the
remaining permits plus the current holders equal the configured burst size. -/
theorem rl_reachable_permit_sum (strat : RateLimiterStrategy) {st : RLState}
    (h : RLReachable strat st) :
    st.available + st.holders = strat.maxConcurrent := by
  induction h with
  | init t0 => rfl
  | step hr ht ih =>
      cases ht with
      | acquire now st hav => simp only at ih ⊢; omega
      | release st hh => simp only at ih ⊢; omega

/-- Claim C4: each admission moves the watermark to
`max(now, previous) + min_interval`, hence (for positive `min_interval`)
the watermark strictly increases and never regresses; in every reachable
state the concurrent holders never exceed `max_concurrent`; and `from_rpm`
sets the interval to `60 / rpm`. -/
theorem rate_limiter_admission (strat : RateLimiterStrategy)
    (hpos : 0 < strat.minInterval) (now next : ℚ) (st : RLState)
    (hreach : RLReachable strat st) (rpm maxConcurrent : ℕ) :
    acquireWatermark strat now next = max now next + strat.minInterval
    ∧ next < acquireWatermark strat now next
    ∧ st.holders ≤ strat.maxConcurrent
    ∧ (fromRpm rpm maxConcurrent).minInterval = 60 / (rpm : ℚ) := by
  have hmax : acquireWatermark strat now next = max now next + strat.minInterval := by
    unfold acquireWatermark
    rcases le_or_lt next now with h | h
    · rw [if_neg (not_lt.mpr h), max_eq_left h]
    · rw [if_pos h, max_eq_right h.le]
  refine ⟨hmax, ?_, ?_, rfl⟩
  · rw [hmax]
    have := le_max_right now next
    linarith
  · have := rl_reachable_permit_sum strat hreach
    omega

/-- Claim C4 witness: a fresh limiter with interval 1, burst 5; and an rpm
of 30. -/
theorem rate_limiter_admission_witness :
    acquireWatermark ⟨1, 5⟩ 0 0 = max 0 0 + (⟨1, 5⟩ : RateLimiterStrategy).minInterval
    ∧ (0 : ℚ) < acquireWatermark ⟨1, 5⟩ 0 0
    ∧ (⟨5, 0, 0⟩ : RLState).holders ≤ (⟨1, 5⟩ : RateLimiterStrategy).maxConcurrent
    ∧ (fromRpm 30 2).minInterval = 60 / (30 : ℚ) :=
  rate_limiter_admission ⟨1, 5⟩ (show (0 : ℚ) < 1 by norm_num) 0 0 ⟨5, 0, 0⟩
    (RLReachable.init 0) 30 2

/-- Claim C5 counterexample: `Chat.add` mutates the receiver's message list
in place and returns the very same object, so a previously observed
snapshot of that Chat does not keep its exact message list. -/
theorem chat_add_mutates_in_place :
    (chatAdd (fun i => if i = 0 then some [respFinal] else none) 0 respOneCall).1 0
      = some [respFinal, respOneCall]
    ∧ (chatAdd (fun i => if i = 0 then some [respFinal] else none) 0 respOneCall).2 = 0
    ∧ some [respFinal, respOneCall] ≠ (some [respFinal] : Option (List Message)) :=
  ⟨rfl, rfl, by decide⟩

/-- Snapshot stability of the conversation loop: the chats of the yielded
steps form a prefix chain, provided the already-yielded accumulator does and
its last element is a prefix of the current chat. -/
theorem runSteps_snapshots_chain (tools : ToolEnv) (ms : Option ℕ) :
    ∀ (responses chat : List Message) (n : ℕ)
      (acc snaps : List (List Message)),
    runStepsFrom tools ms responses chat n acc = .ok snaps →
    List.Chain' (· <+: ·) acc →
    (∀ l ∈ acc.getLast?, l <+: chat) →
    List.Chain' (· <+: ·) snaps := by
  intro responses
  induction responses with
  | nil =>
      intro chat n acc snaps hrun hacc hlast
      simp only [runStepsFrom] at hrun
      cases hbrk : budgetReached ms n with
      | true => rw [hbrk, Bool.cond_true] at hrun; cases hrun; exact hacc
      | false => rw [hbrk, Bool.cond_false] at hrun; cases hrun
  | cons r restResponses ih =>
      intro chat n acc snaps hrun hacc hlast
      simp only [runStepsFrom] at hrun
      cases hbrk : budgetReached ms n with
      | true => rw [hbrk, Bool.cond_true] at hrun; cases hrun; exact hacc
      | false =>
        rw [hbrk, Bool.cond_false] at hrun
        have hacc1 : List.Chain' (· <+: ·) (acc ++ [chat ++ [r]]) := by
          rw [List.chain'_append]
          refine ⟨hacc, List.chain'_singleton _, ?_⟩
          intro x hx y hy
          simp only [List.head?_cons, Option.mem_def, Option.some.injEq] at hy
          subst hy
          exact (hlast x hx).trans (List.prefix_append chat [r])
        have hlast1 : ∀ l ∈ (acc ++ [chat ++ [r]]).getLast?, l <+: chat ++ [r] := by
          intro l hl
          rw [List.getLast?_concat] at hl
          simp only [Option.mem_def, Option.some.injEq] at hl
          subst hl
          exact List.prefix_refl _
        cases hemp : r.toolCalls.isEmpty with
        | true => rw [hemp, Bool.cond_true] at hrun; cases hrun; exact hacc1
        | false =>
          rw [hemp, Bool.cond_false] at hrun
          cases htms : toolResultMessages tools r.toolCalls with
          | error e => rw [htms] at hrun; cases hrun
          | ok tms =>
              rw [htms] at hrun
              exact ih (chat ++ [r] ++ tms) (n + 1) (acc ++ [chat ++ [r]]) snaps
                hrun hacc1
                (fun l hl => (hlast1 l hl).trans (List.prefix_append _ tms))

/-- Claim C5 (amended): the conversation loop itself is copy-on-append — the
sequence of conversation snapshots yielded as steps is a prefix chain, each
snapshot extending the previous one, so previously observed snapshots keep
their exact message lists.  (`Chat.add`, by contrast, appends in place and
returns the same object; the loop never uses it.) -/
theorem chat_workflow_snapshots_stable (tools : ToolEnv) (ms : Option ℕ)
    (responses init : List Message) (snaps : List (List Message))
    (h : runStepsFrom tools ms responses init 0 [] = .ok snaps) :
    List.Chain' (· <+: ·) snaps :=
  runSteps_snapshots_chain tools ms responses init 0 [] snaps h
    List.chain'_nil (by simp)

/-- Claim C5 witness: the two snapshots of a one-tool-round conversation
form a prefix chain. -/
theorem chat_workflow_snapshots_stable_witness :
    List.Chain' (· <+: ·)
      [[respOneCall],
       [respOneCall,
        { role := .tool, content := some "a", toolCallId := some "call_1" },
        respFinal]] :=
  chat_workflow_snapshots_stable echoTools none [respOneCall, respFinal] []
    [[respOneCall],
     [respOneCall,
      { role := .tool, content := some "a", toolCallId := some "call_1" },
      respFinal]] rfl

/-- When every requested tool is registered, tool execution succeeds and
produces exactly one tool-result message per requested call. -/
theorem toolResultMessages_ok (tools : ToolEnv) :
    ∀ calls : List ToolCall,
    (∀ tc ∈ calls, (tools tc.function.name).isSome) →
    ∃ tms, toolResultMessages tools calls = .ok tms
      ∧ tms.length = calls.length := by
  intro calls
  induction calls with
  | nil => exact fun _ => ⟨[], rfl, rfl⟩
  | cons tc restCalls ih =>
      intro h
      obtain ⟨f, hf⟩ :=
        Option.isSome_iff_exists.mp (h tc (List.mem_cons_self tc restCalls))
      obtain ⟨tms, htms, hlen⟩ := ih fun x hx => h x (List.mem_cons_of_mem _ hx)
      exact ⟨{ role := .tool, content := some (f tc.function.arguments),
               toolCallId := some tc.id } :: tms,
             by simp [toolResultMessages, hf, htms], by simp [hlen]⟩

/-- Without a step budget, a run whose generator emits `pre` tool-call
rounds followed by a tool-call-free response consumes exactly
`pre.length + 1` responses: it yields one snapshot per round, and the final
snapshot extends the initial messages by one assistant message and
`r.toolCalls.length` tool messages per round of `pre`, plus the final
assistant message. -/
theorem runSteps_consume_spec (tools : ToolEnv) (fin : Message)
    (hfin : fin.toolCalls = []) (rest : List Message) :
    ∀ (pre : List Message) (init : List Message) (n : ℕ)
      (acc : List (List Message)),
    (∀ r ∈ pre, r.toolCalls ≠ []) →
    (∀ r ∈ pre, ∀ tc ∈ r.toolCalls, (tools tc.function.name).isSome) →
    ∃ (snaps : List (List Message)) (chat : List Message),
      runStepsFrom tools none (pre ++ fin :: rest) init n acc = .ok (acc ++ snaps)
      ∧ snaps.length = pre.length + 1
      ∧ snaps.getLast? = some chat
      ∧ chat.length = init.length +
          ((pre.map fun r => 1 + r.toolCalls.length).sum) + 1 := by
  intro pre
  induction pre with
  | nil =>
      intro init n acc _ _
      refine ⟨[init ++ [fin]], init ++ [fin], ?_, rfl, rfl, by simp⟩
      simp only [List.nil_append, runStepsFrom, budgetReached, Bool.cond_false]
      rw [hfin]
      rfl
  | cons r pre' ih =>
      intro init n acc hpre htools
      have hr : r.toolCalls ≠ [] := hpre r (List.mem_cons_self r pre')
      obtain ⟨tms, htms, hlen⟩ := toolResultMessages_ok tools r.toolCalls
        (htools r (List.mem_cons_self r pre'))
      obtain ⟨snaps', chat, hrun, hsl, hlast, hcl⟩ :=
        ih ((init ++ [r]) ++ tms) (n + 1) (acc ++ [init ++ [r]])
          (fun x hx => hpre x (List.mem_cons_of_mem _ hx))
          (fun x hx => htools x (List.mem_cons_of_mem _ hx))
      have hemp : r.toolCalls.isEmpty = false := by
        cases hc : r.toolCalls with
        | nil => exact absurd hc hr
        | cons a l => rfl
      have hrun' : runStepsFrom tools none (pre' ++ fin :: rest)
          (init ++ [r] ++ tms) (n + 1) (acc ++ [init ++ [r]])
          = .ok (acc ++ (init ++ [r]) :: snaps') := by
        rw [hrun, List.append_assoc]
        rfl
      have hne : snaps' ≠ [] := by
        intro hempty
        rw [hempty] at hsl
        simp at hsl
      refine ⟨[init ++ [r]] ++ snaps', chat, ?_, by simp [hsl], ?_, ?_⟩
      · simp only [List.cons_append, runStepsFrom, budgetReached,
          Bool.cond_false, hemp, htms, List.append_eq, List.nil_append]
        exact hrun'
      · rw [List.getLast?_append_of_ne_nil _ hne]
        exact hlast
      · rw [hcl]
        simp only [List.length_append, List.length_cons, List.map_cons,
          List.sum_cons, List.length_nil, hlen]
        omega

/-- Claim C3 counterexample: a single round whose response carries two
tool-call requests followed by a tool-call-free response produces a final
conversation of 4 messages (assistant, two tool results, assistant), while
the claimed formula `initial + 2·(rounds with tool calls) + 1` gives 3. -/
theorem chat_run_two_tool_calls_message_count :
    (runChatWorkflow echoTools none [respTwoCalls, respFinal] []).map List.length
      = .ok 4
    ∧ (4 : ℕ) ≠ ([] : List Message).length + 2 * 1 + 1 :=
  ⟨rfl, by decide⟩

/-- Claim C3 (amended): when the generator returns `pre` responses that all
carry tool calls (all resolvable) and then a tool-call-free response, `run`
terminates in exactly that round — it yields `pre.length + 1` snapshots and
leaves later responses unconsumed — and the returned conversation's message
count is the initial count, plus one assistant message and one tool message
per tool call for each tool-call round, plus the final assistant message. -/
theorem chat_run_rounds_and_message_count (tools : ToolEnv)
    (pre : List Message) (fin : Message) (rest init : List Message)
    (hpre : ∀ r ∈ pre, r.toolCalls ≠ [])
    (htools : ∀ r ∈ pre, ∀ tc ∈ r.toolCalls, (tools tc.function.name).isSome)
    (hfin : fin.toolCalls = []) :
    ∃ (snaps : List (List Message)) (chat : List Message),
      runStepsFrom tools none (pre ++ fin :: rest) init 0 [] = .ok snaps
      ∧ snaps.length = pre.length + 1
      ∧ runChatWorkflow tools none (pre ++ fin :: rest) init = .ok chat
      ∧ chat.length = init.length +
          ((pre.map fun r => 1 + r.toolCalls.length).sum) + 1 := by
  obtain ⟨snaps, chat, hrun, hsl, hlast, hcl⟩ :=
    runSteps_consume_spec tools fin hfin rest pre init 0 [] hpre htools
  rw [List.nil_append] at hrun
  refine ⟨snaps, chat, hrun, hsl, ?_, hcl⟩
  simp only [runChatWorkflow, hrun, hlast]

/-- Claim C3 witness: one single-tool-call round, then a final response. -/
theorem chat_run_rounds_and_message_count_witness :
    ∃ (snaps : List (List Message)) (chat : List Message),
      runStepsFrom echoTools none ([respOneCall] ++ respFinal :: []) [] 0 []
        = .ok snaps
      ∧ snaps.length = [respOneCall].length + 1
      ∧ runChatWorkflow echoTools none ([respOneCall] ++ respFinal :: []) []
          = .ok chat
      ∧ chat.length = ([] : List Message).length +
          (([respOneCall].map fun r => 1 + r.toolCalls.length).sum) + 1 :=
  chat_run_rounds_and_message_count echoTools [respOneCall] respFinal [] []
    (by decide) (by decide) rfl

/-- With a step budget of `n + pre.length` and a generator whose next
`pre.length` responses all carry resolvable tool calls, the loop starting at
step `n` runs exactly `pre.length` rounds and then stops at the budget,
returning the accumulated snapshots without error. -/
theorem runSteps_budget_spec (tools : ToolEnv) (rest : List Message) :
    ∀ (pre : List Message) (init : List Message) (n : ℕ)
      (acc : List (List Message)),
    (∀ r ∈ pre, r.toolCalls ≠ []) →
    (∀ r ∈ pre, ∀ tc ∈ r.toolCalls, (tools tc.function.name).isSome) →
    ∃ snaps, runStepsFrom tools (some (n + pre.length)) (pre ++ rest) init n acc
        = .ok (acc ++ snaps)
      ∧ snaps.length = pre.length := by
  intro pre
  induction pre with
  | nil =>
      intro init n acc _ _
      refine ⟨[], ?_, rfl⟩
      have hb : budgetReached (some n) n = true := by
        simp [budgetReached]
      rw [List.nil_append]
      cases rest with
      | nil => simp [runStepsFrom, hb]
      | cons a l => simp [runStepsFrom, hb]
  | cons r pre' ih =>
      intro init n acc hpre htools
      have hr : r.toolCalls ≠ [] := hpre r (List.mem_cons_self r pre')
      obtain ⟨tms, htms, _⟩ := toolResultMessages_ok tools r.toolCalls
        (htools r (List.mem_cons_self r pre'))
      have harith : n + (r :: pre').length = (n + 1) + pre'.length := by
        simp [List.length_cons]
        omega
      obtain ⟨snaps', hrun, hsl⟩ :=
        ih ((init ++ [r]) ++ tms) (n + 1) (acc ++ [init ++ [r]])
          (fun x hx => hpre x (List.mem_cons_of_mem _ hx))
          (fun x hx => htools x (List.mem_cons_of_mem _ hx))
      have hemp : r.toolCalls.isEmpty = false := by
        cases hc : r.toolCalls with
        | nil => exact absurd hc hr
        | cons a l => rfl
      have hnb : budgetReached (some (n + (r :: pre').length)) n = false := by
        simp [budgetReached, List.length_cons]
      have hrun' : runStepsFrom tools (some ((n + 1) + pre'.length))
          (pre' ++ rest) (init ++ [r] ++ tms) (n + 1) (acc ++ [init ++ [r]])
          = .ok (acc ++ (init ++ [r]) :: snaps') := by
        rw [hrun, List.append_assoc]
        rfl
      refine ⟨[init ++ [r]] ++ snaps', ?_, by simp [hsl]⟩
      simp only [List.cons_append, runStepsFrom, hnb, Bool.cond_false,
        hemp, htms, List.append_eq, List.nil_append]
      rw [harith]
      exact hrun'

/-- Claim C7 counterexample: with a configured budget of 0 there is no
completed round, and `run` raises `RuntimeError("Chat workflow step
failed.")` instead of returning a conversation. -/
theorem chat_run_budget_zero_raises :
    runChatWorkflow echoTools (some 0) [respFinal] [] = .error .runtimeError :=
  rfl

/-- Claim C7 (amended): with a configured max-rounds budget of at least 1,
if every response up to the budget carries (resolvable) tool calls — so the
budget is reached before a tool-call-free response appears — `run` stops at
the budget and returns the last completed round's conversation as a normal
result; with a budget of 0 no round completes and `run` instead raises a
`RuntimeError`. -/
theorem chat_run_budget_exhaustion (tools : ToolEnv)
    (pre rest init : List Message) (hne : pre ≠ [])
    (hpre : ∀ r ∈ pre, r.toolCalls ≠ [])
    (htools : ∀ r ∈ pre, ∀ tc ∈ r.toolCalls, (tools tc.function.name).isSome) :
    ∃ (snaps : List (List Message)) (chat : List Message),
      runStepsFrom tools (some pre.length) (pre ++ rest) init 0 []
        = .ok snaps
      ∧ snaps.length = pre.length
      ∧ snaps.getLast? = some chat
      ∧ runChatWorkflow tools (some pre.length) (pre ++ rest) init = .ok chat := by
  obtain ⟨snaps, hrun, hsl⟩ :=
    runSteps_budget_spec tools rest pre init 0 [] hpre htools
  rw [Nat.zero_add, List.nil_append] at hrun
  have hsne : snaps ≠ [] := by
    intro hempty
    rw [hempty, List.length_nil] at hsl
    exact hne (List.length_eq_zero.mp hsl.symm)
  obtain ⟨chat, hchat⟩ := Option.isSome_iff_exists.mp
    (List.getLast?_isSome.mpr hsne)
  refine ⟨snaps, chat, hrun, hsl, hchat, ?_⟩
  simp only [runChatWorkflow, hrun, hchat]

/-- Claim C7 witness: budget 1, one tool-call round available, final
response never reached. -/
theorem chat_run_budget_exhaustion_witness :
    ∃ (snaps : List (List Message)) (chat : List Message),
      runStepsFrom echoTools (some [respOneCall].length)
          ([respOneCall] ++ [respFinal]) [] 0 [] = .ok snaps
      ∧ snaps.length = [respOneCall].length
      ∧ snaps.getLast? = some chat
      ∧ runChatWorkflow echoTools (some [respOneCall].length)
          ([respOneCall] ++ [respFinal]) [] = .ok chat :=
  chat_run_budget_exhaustion echoTools [respOneCall] [respFinal] []
    (by decide) (by decide) (by decide)

end Counterpoint
